import Mathlib

/-!
Shallow embedding of the astrometric-matching routines of QuickReduce
(`dev_ccmatch.py`, `podi_matchcatalogs.py`).

Conventions of the embedding:
* numpy arrays of catalog rows become Lean lists; a row is a `Row`
  (first two columns Ra/Dec, remaining columns `rest`) or, for the
  two-column catalogs handed to `count_matches`, a plain pair `Point`.
* machine floats become exact rationals `ℚ`; `math.cos` (transcendental)
  is kept as `Real.cos` where a claim is about the cosine factor itself,
  and elsewhere the cosine scale factor is an explicit parameter `c` of
  the embedded function, so that the combinatorial part stays executable.
* a Euclidean-ball test `dist ≤ r` (scipy `query_ball_tree`, p=2, closed
  ball) is embedded as the equivalent `dist² ≤ r²` over `ℚ`.
* code that raises a Python exception is embedded as an `Option` result,
  `none` marking the raise.
-/

/-- A two-column catalog entry (Ra, Dec), as handed to `count_matches`. -/
abbrev Point := ℚ × ℚ

/-- Squared Euclidean distance between two points. -/
def dist2p (a b : Point) : ℚ := (a.1 - b.1) * (a.1 - b.1) + (a.2 - b.2) * (a.2 - b.2)

/-- Multiply the Ra column of a two-column catalog by a scale factor,
embedding `cat[:,0] *= cos_dec`. -/
def scaleRA (c : ℚ) (cat : List Point) : List Point :=
  cat.map (fun p => (c * p.1, p.2))

/-- numpy-style first-index argmax over values attached to list items:
fold keeping the earlier item unless a strictly larger value appears,
embedding `numpy.argmax` tie-breaking (first maximum wins). -/
def argmaxBy (f : α → ℚ) (h : α) (t : List α) : α :=
  t.foldl (fun acc x => if f x > f acc then x else acc) h

/-- `count_matches` (dev_ccmatch.py lines 61-187), with the
`cos_dec` scale factor abstracted as the parameter `c` (the code computes
it as `cos(radians(min 85 (max |dec| of src_cat)))`; see
`count_matches_cos_dec`).  Steps, in source order: scale the Ra column of
both catalogs by `c`; collect the offset `ref_j - src_i` for every pair
within `pointing_error`; for each candidate offset count the candidate
offsets within `matching_radius` of it; return the highest count together
with the corresponding offset, whose Ra component is unscaled back.
`numpy.argmax` on the empty `search_weights` array raises a `ValueError`,
embedded as `none` when the candidate-offset list is empty. -/
def count_matches_core (c : ℚ) (src_cat ref_cat : List Point)
    (pointing_error matching_radius : ℚ) : Option (ℕ × Point) :=
  let srcS := scaleRA c src_cat
  let refS := scaleRA c ref_cat
  let all_offsets := srcS.flatMap (fun s =>
    (refS.filter (fun r => decide (dist2p s r ≤ pointing_error * pointing_error))).map
      (fun r => (r.1 - s.1, r.2 - s.2)))
  match all_offsets with
  | [] => none
  | o :: os =>
    let weight := fun q =>
      ((o :: os).countP (fun p => decide (dist2p q p ≤ matching_radius * matching_radius)) : ℚ)
    let best := argmaxBy weight o os
    some (((o :: os).countP (fun p => decide (dist2p best p ≤ matching_radius * matching_radius))),
      (best.1 / c, best.2))

/-- The declination that `count_matches` derives the cosine factor from:
`max |dec|` over the SOURCE catalog (dev_ccmatch.py line 82), capped at 85
(line 83).  numpy.max over the column is embedded as a fold with base 0
(declination magnitudes are nonnegative, so the base is inert on nonempty
catalogs). -/
def maxAbsDec (cat : List Point) : ℚ :=
  (cat.map (fun p => |p.2|)).foldr max 0

/-- The cap `if max_declination > 85: max_declination = 85`
(dev_ccmatch.py line 83). -/
def capDec (d : ℚ) : ℚ := if d > 85 then 85 else d

/-- Degrees to radians, `math.radians`. -/
noncomputable def toRadians (d : ℚ) : ℝ := (d : ℝ) * Real.pi / 180

/-- The `cos_dec` factor computed by `count_matches`
(dev_ccmatch.py lines 82-84).  The function receives both catalogs, but
the code reads only the source catalog's declination column. -/
noncomputable def count_matches_cos_dec (src_cat ref_cat : List Point) : ℝ :=
  Real.cos (toRadians (capDec (maxAbsDec src_cat)))

/-- The cosine factor as the claim states it: cos of the larger of the two
catalogs' maximum absolute declinations, capped at 85 degrees. -/
noncomputable def cos_dec_claimed (src_cat ref_cat : List Point) : ℝ :=
  Real.cos (toRadians (min 85 (max (maxAbsDec src_cat) (maxAbsDec ref_cat))))

/-- A full catalog row (one star): first two columns Ra/Dec, remaining columns
(`x, y, flags, magnitudes, ...`) kept opaque in `rest`. -/
structure Row where
  ra : ℚ
  dec : ℚ
  rest : List ℚ
deriving DecidableEq

/-- Squared Euclidean distance on the first two columns of two rows,
embedding the p=2 metric of `scipy.spatial.cKDTree` on `catalog[:,0:2]`. -/
def dist2s (a b : Row) : ℚ := (a.ra - b.ra) * (a.ra - b.ra) + (a.dec - b.dec) * (a.dec - b.dec)

/-- `pick_isolated_stars` (dev_ccmatch.py lines 1084-1121): keep a row iff
its neighbor count within `radius/3600` (itself always included, closed
ball) is at most 1, i.e. no other row lies within the matching radius. -/
def pick_isolated_stars (catalog : List Row) (radius : ℚ) : List Row :=
  let matching_radius := radius / 3600
  catalog.filter (fun s =>
    decide (catalog.countP (fun t => decide (dist2s s t ≤ matching_radius * matching_radius)) ≤ 1))

/-- The isolated-star selection step of `ccmatch`
(dev_ccmatch.py lines 1491-1505): run `pick_isolated_stars` with radius 10;
if that leaves no star, warn and fall back to the full (pre-isolation)
catalog.  Returns the catalog used downstream and the warning flag. -/
def ccmatch_select_isolated (full_src_cat : List Row) : List Row × Bool :=
  let isolated_stars := pick_isolated_stars full_src_cat 10
  if isolated_stars.length ≤ 0 then (full_src_cat, true) else (isolated_stars, false)

/-- Scale the Ra column of one full row, `cat[:,0] *= cos_dec`. -/
def scaleRow (c : ℚ) (s : Row) : Row := Row.mk (c * s.ra) s.dec s.rest

/-- `kd_match_catalogs` (dev_ccmatch.py lines 257-342), with the `cos_dec`
factor (which the code derives from the REFERENCE catalog's declinations,
lines 295-297) abstracted as the parameter `c`.  Steps, in source order:
scale the Ra column of both catalogs by `c`; for every source row collect
the reference rows within `matching_radius` (closed ball, p=2, on the
scaled coordinates); keep the row iff the candidate count is in
`[1, max_count]`, pairing it with the first candidate; finally divide the
two Ra columns of the output (source Ra and reference Ra) by `c` again.
An output row is the pair (source part, reference part). -/
def kd_match_catalogs_core (c : ℚ) (src_cat ref_cat : List Row)
    (matching_radius : ℚ) (max_count : ℕ) : List (Row × Row) :=
  let srcS := src_cat.map (scaleRow c)
  let refS := ref_cat.map (scaleRow c)
  let merged := srcS.filterMap (fun s =>
    let cands := refS.filter (fun r => decide (dist2s s r ≤ matching_radius * matching_radius))
    match cands with
    | [] => none
    | r :: rs => if rs.length + 1 ≤ max_count then some (s, r) else none)
  merged.map (fun p => (Row.mk (p.1.ra / c) p.1.dec p.1.rest,
                        Row.mk (p.2.ra / c) p.2.dec p.2.rest))

/-- `numpy.linspace start stop num`: `num` evenly spaced samples from
`start` to `stop`, both ends included (`num = 1` gives `[start]`). -/
def npLinspace (start stop : ℚ) (num : ℕ) : List ℚ :=
  if num ≤ 1 then (List.range num).map (fun _ => start)
  else (List.range num).map
    (fun i : ℕ => start + (i : ℚ) * ((stop - start) / ((num : ℚ) - 1)))

/-- The three shapes the `angle_max` argument of `find_best_guess` may
take: `None`, a plain number, or a two-element list `[min, max]`
(dev_ccmatch.py lines 460-476; any other shape exits the program). -/
inductive AngleMax where
  | noRotation : AngleMax
  | scalar (a : ℚ) : AngleMax
  | interval (lo hi : ℚ) : AngleMax
deriving DecidableEq

/-- The rotation-angle grid built by `find_best_guess`
(dev_ccmatch.py lines 460-476): the single angle 0 for `None`;
`int(ceil(2*angle_max/(d_angle/60)))+1` samples from `-angle_max` to
`angle_max` for a scalar; `int(ceil((max-min)/(d_angle/60)))+1` samples
from `min` to `max` for a pair. -/
def angleGrid (angle_max : AngleMax) (d_angle : ℚ) : List ℚ :=
  match angle_max with
  | .noRotation => [0]
  | .scalar a =>
    let n_angles := (Int.ceil ((2 * a) / (d_angle / 60))).toNat + 1
    npLinspace (-a) a n_angles
  | .interval lo hi =>
    let n_angles := (Int.ceil ((hi - lo) / (d_angle / 60))).toNat + 1
    npLinspace lo hi n_angles

/-- One row of the `all_results` array of `find_best_guess`: the probed
rotation angle, the best offset found at that angle, and its vote count. -/
structure ResultRow where
  angle : ℚ
  dx : ℚ
  dy : ℚ
  votes : ℚ
deriving DecidableEq

/-- `numpy.median` over `ℚ`: sort, take the middle element (odd length) or
the mean of the two middle elements (even length); 0 on the empty list
(numpy would return NaN there — every use in this file is guarded). -/
def npMedian (l : List ℚ) : ℚ :=
  let s := l.insertionSort (· ≤ ·)
  if l.length % 2 = 1 then s.getD (l.length / 2) 0
  else (s.getD (l.length / 2 - 1) 0 + s.getD (l.length / 2) 0) / 2

/-- The best row of `all_results` (dev_ccmatch.py lines 562-564):
`numpy.argmax` over the vote column, first maximum wins. -/
def fbg_best_guess (h : ResultRow) (t : List ResultRow) : ResultRow :=
  argmaxBy (fun r => r.votes) h t

/-- The random-match background of `find_best_guess`
(dev_ccmatch.py lines 572-580): the median vote count over the rows whose
angle differs from the best angle by more than 20 arcminutes, or 1 when
there is no such row. -/
def fbg_n_random_matches (h : ResultRow) (t : List ResultRow) : ℚ :=
  let best_angle := (fbg_best_guess h t).angle
  let wrong_angles := (h :: t).countP (fun r => decide (|r.angle - best_angle| > 20 / 60))
  if wrong_angles ≤ 0 then 1
  else npMedian (((h :: t).filter
    (fun r => decide (|r.angle - best_angle| > 20 / 60))).map (fun r => r.votes))

/-- The contrast statistic of `find_best_guess`
(dev_ccmatch.py lines 583-586), with `math.sqrt` abstracted as the
parameter `sqrt`: `(best votes - background)/sqrt background` when the
background is at least 1, the raw best vote count otherwise. -/
def fbg_contrast (sqrt : ℚ → ℚ) (h : ResultRow) (t : List ResultRow) : ℚ :=
  let best_guess := fbg_best_guess h t
  let n_random_matches := fbg_n_random_matches h t
  if n_random_matches ≥ 1 then (best_guess.votes - n_random_matches) / sqrt n_random_matches
  else best_guess.votes

/-- The contrast statistic as claim C3 words it: the background is the
median vote count over the grid points whose angle differs from the best
angle by more than 20 arcminutes, set to 1 when no such grid point exists;
the contrast is the best vote count itself when the background is below 1,
and `(best - background)/sqrt background` otherwise. -/
def contrast_claimed (sqrt : ℚ → ℚ) (h : ResultRow) (t : List ResultRow) : ℚ :=
  let best := fbg_best_guess h t
  let far := (h :: t).filter (fun r => decide (|r.angle - best.angle| > 20 / 60))
  let background := if far = [] then 1 else npMedian (far.map (fun r => r.votes))
  if background < 1 then best.votes
  else (best.votes - background) / sqrt background

/-- The serial (`allow_parallel=False`) branch of `find_best_guess`
(dev_ccmatch.py lines 538-552).  Its first loop iteration evaluates the
call `count_matches(src_rotated, ref_cat, matching_radius,
fine_radius=fine_radius, debugangle=angle)`, but no global or local named
`fine_radius` exists anywhere in the module (and `count_matches` accepts
no such keyword), so for every nonempty angle grid the branch raises
`NameError` before any matching work is done; with an empty grid the loop
body never runs.  The raise is embedded as `none`. -/
def find_best_guess_serial (angles : List ℚ) : Option Unit :=
  match angles with
  | [] => some ()
  | _ :: _ => none

/-- Result record of the rotation-mode `ccmatch` radius search: the
`valid_wcs_solution` flag of the returned dictionary and the contrast of
the last radius tried. -/
structure RadiusSearchResult where
  valid_wcs_solution : Bool
  contrast : ℚ
deriving DecidableEq

/-- The pointing-error fallback loop of `ccmatch`
(dev_ccmatch.py lines 1620-1653), with the per-radius contrast abstracted
as `contrastAt`: walk the radii in order, stopping at the first whose
contrast strictly exceeds `min_contrast`; afterwards, if the contrast of
the last radius tried is strictly below `min_contrast`, report
`valid_wcs_solution = False`, otherwise `True`.  An empty radius list
leaves the Python variable `contrast` unbound at line 1644 (`NameError`),
embedded as `none`. -/
def ccmatch_radius_loop (contrastAt : ℚ → ℚ) (min_contrast : ℚ) :
    List ℚ → Option RadiusSearchResult
  | [] => none
  | [r] =>
    some (RadiusSearchResult.mk (decide ¬ (contrastAt r < min_contrast)) (contrastAt r))
  | r :: r2 :: rs =>
    if contrastAt r > min_contrast then
      some (RadiusSearchResult.mk (decide ¬ (contrastAt r < min_contrast)) (contrastAt r))
    else ccmatch_radius_loop contrastAt min_contrast (r2 :: rs)

/-- The rotation-mode radius search of `ccmatch`: the configured
pointing-error list is sorted ascending (`numpy.sort`,
dev_ccmatch.py line 1406) before the fallback loop runs over it. -/
def ccmatch_radius_search (contrastAt : ℚ → ℚ) (min_contrast : ℚ)
    (max_pointing_error_list : List ℚ) : Option RadiusSearchResult :=
  ccmatch_radius_loop contrastAt min_contrast
    (max_pointing_error_list.insertionSort (· ≤ ·))

/-- numpy-style first-index argmin (`numpy.argsort` is stable, so
`si[0]` is the first index attaining the minimum): fold keeping the
earlier item unless a strictly smaller value appears. -/
def argminBy (f : α → ℚ) (h : α) (t : List α) : α :=
  t.foldl (fun acc x => if f x < f acc then x else acc) h

/-- `arcsec = 1./3600.` (podi_matchcatalogs.py line 10). -/
def arcsec : ℚ := 1 / 3600

/-- The sentinel written into the counterpart coordinate columns of an
unmatched reference star (podi_matchcatalogs.py line 66). -/
def notFound : ℚ := -999999 / 10

/-- The reference-star box selection of `match_catalog_segment`
(podi_matchcatalogs.py lines 43-44): strict lower bounds, inclusive
upper bounds on both coordinates. -/
def seg_ref_select (ra_lo ra_hi dec_lo dec_hi : ℚ) (r : Row) : Bool :=
  decide (ra_lo < r.ra) && decide (r.ra ≤ ra_hi) &&
  decide (dec_lo < r.dec) && decide (r.dec ≤ dec_hi)

/-- The per-pair squared separation of `match_catalog_segment`
(podi_matchcatalogs.py lines 82-84): the Ra difference is scaled by the
cosine of the reference star's declination (abstracted as `cosf`). -/
def seg_sq_d (cosf : ℚ → ℚ) (r o : Row) : ℚ :=
  (r.ra - o.ra) * cosf r.dec * ((r.ra - o.ra) * cosf r.dec) + (r.dec - o.dec) * (r.dec - o.dec)

/-- One row of the `match_catalog_segment` output array.  The column
layout of the numpy array is `[ref Ra, ref Dec, odi Ra, odi Dec,
ref cols 2.., odi cols 2..]`; the four coordinate columns and the two
remainder slices are kept as named fields. -/
structure SegRow where
  ref_ra : ℚ
  ref_dec : ℚ
  odi_ra : ℚ
  odi_dec : ℚ
  ref_rest : List ℚ
  odi_rest : List ℚ
deriving DecidableEq

/-- The odi-star box preselection of `match_catalog_segment`
(podi_matchcatalogs.py lines 51-58): the Ra/Dec box extended by the
matching radius, the Ra side scaled by the cosine of the selected
reference stars' largest `|dec|` (all bounds strict). -/
def seg_odi_box (cosf : ℚ → ℚ) (ref : List Row)
    (ra_lo ra_hi dec_lo dec_hi matching_radius : ℚ) (o : Row) : Bool :=
  let max_cos_dec := (ref.map (fun r => |r.dec|)).foldr max 0
  let d_ra := matching_radius * arcsec * cosf max_cos_dec
  let d_dec := matching_radius * arcsec
  decide (ra_lo - d_ra < o.ra) && decide (o.ra < ra_hi + d_ra) &&
  decide (dec_lo - d_dec < o.dec) && decide (o.dec < dec_hi + d_dec)

/-- The output row that `match_catalog_segment` emits for one selected
reference star (podi_matchcatalogs.py lines 64-92): initialised with the
sentinel in the odi coordinate columns and zeros in the odi data
columns, overwritten with the closest preselected odi star's coordinates
and data when its squared separation is below `(2 arcsec)²`
(`matching_radius_squared`, the radius being hard-coded at line 78). -/
def seg_row_for (cosf : ℚ → ℚ) (odi_w : ℕ) (odi : List Row) (star : Row) : SegRow :=
  match odi with
  | [] => SegRow.mk star.ra star.dec notFound notFound star.rest
      (List.replicate (odi_w - 2) 0)
  | o1 :: orest =>
    let closest := argminBy (seg_sq_d cosf star) o1 orest
    if seg_sq_d cosf star closest < 2 * arcsec * (2 * arcsec) then
      SegRow.mk star.ra star.dec closest.ra closest.dec star.rest closest.rest
    else SegRow.mk star.ra star.dec notFound notFound star.rest
      (List.replicate (odi_w - 2) 0)

/-- `match_catalog_segment` (podi_matchcatalogs.py lines 39-97), with
`math.cos ∘ math.radians` abstracted as `cosf` and the odi column count
as `odi_w`.  Steps, in source order: select the reference stars inside
the Ra/Dec box (`None` — embedded as `none` — when that selection is
empty); preselect the odi stars inside the extended box; emit one output
row per selected reference star via `seg_row_for`. -/
def match_catalog_segment (cosf : ℚ → ℚ) (odi_w : ℕ) (ref_full odi_full : List Row)
    (ra_lo ra_hi dec_lo dec_hi matching_radius : ℚ) : Option (List SegRow) :=
  match ref_full.filter (seg_ref_select ra_lo ra_hi dec_lo dec_hi) with
  | [] => none
  | r0 :: rr =>
    let odi := odi_full.filter
      (seg_odi_box cosf (r0 :: rr) ra_lo ra_hi dec_lo dec_hi matching_radius)
    some ((r0 :: rr).map (seg_row_for cosf odi_w odi))

/-- `kd_match_catalogs` with `max_count = 1` as claim C5 words it: a
source row survives iff exactly one reference row lies within the
matching radius of it in declination-scaled coordinates, and the output
row is the source row followed by that single matching reference row. -/
def kd_match_claimed (c : ℚ) (src_cat ref_cat : List Row)
    (matching_radius : ℚ) : List (Row × Row) :=
  src_cat.filterMap (fun s =>
    match ref_cat.filter (fun r =>
        decide (dist2s (scaleRow c s) (scaleRow c r) ≤ matching_radius * matching_radius)) with
    | [r] => some (s, r)
    | _ => none)

/-! ## Helper lemmas -/

/-- A fold that at each step keeps either the accumulator or the new
element ends at the start value or at a list element. -/
theorem foldl_min_mem (f : α → ℚ) (t : List α) :
    ∀ a : α, t.foldl (fun acc x => if f x < f acc then x else acc) a = a ∨
      t.foldl (fun acc x => if f x < f acc then x else acc) a ∈ t := by
  induction t with
  | nil => intro a; left; rfl
  | cons x xs ih =>
    intro a
    simp only [List.foldl_cons]
    rcases ih (if f x < f a then x else a) with h1 | h1
    · rw [h1]
      by_cases hfx : f x < f a
      · rw [if_pos hfx]; right; exact List.mem_cons_self x xs
      · rw [if_neg hfx]; left; rfl
    · right; exact List.mem_cons_of_mem x h1

/-- The result of `argminBy` is one of the candidates. -/
theorem argminBy_mem (f : α → ℚ) (h : α) (t : List α) : argminBy f h t ∈ h :: t := by
  unfold argminBy
  rcases foldl_min_mem f t h with h1 | h1
  · rw [h1]; exact List.mem_cons_self h t
  · exact List.mem_cons_of_mem h h1

/-- Cap-at-85 as a `min`. -/
theorem capDec_eq_min (d : ℚ) : capDec d = min 85 d := by
  unfold capDec
  by_cases h : d > 85
  · rw [if_pos h, min_eq_left h.le]
  · rw [if_neg h, min_eq_right (not_lt.mp h)]

/-! ## Claim C8 — the isolation filter is a fixed point of itself -/

/-- C8: `pick_isolated_stars` is idempotent: applying it to its own
output with the same radius returns that output unchanged. -/
theorem pick_isolated_stars_idempotent (catalog : List Row) (radius : ℚ) :
    pick_isolated_stars (pick_isolated_stars catalog radius) radius =
      pick_isolated_stars catalog radius := by
  unfold pick_isolated_stars
  apply List.filter_eq_self.mpr
  intro a ha
  rw [List.mem_filter] at ha
  obtain ⟨hmem, hcnt⟩ := ha
  simp only [decide_eq_true_eq] at hcnt ⊢
  exact le_trans ((List.filter_sublist catalog).countP_le _) hcnt

/-! ## Claim C9 — empty isolation result falls back to the full catalog -/

/-- C9: when `pick_isolated_stars` empties the source catalog, `ccmatch`
continues with the unfiltered (pre-isolation) catalog and raises the
warning flag instead of failing. -/
theorem ccmatch_select_isolated_fallback (full_src_cat : List Row)
    (hempty : pick_isolated_stars full_src_cat 10 = []) :
    ccmatch_select_isolated full_src_cat = (full_src_cat, true) := by
  unfold ccmatch_select_isolated
  rw [hempty]
  simp

/-- Witness for C9: two coincident rows are both dropped by the isolation
filter, and the fallback hands back the full two-row catalog. -/
theorem ccmatch_select_isolated_fallback_witness :
    pick_isolated_stars [Row.mk 0 0 [], Row.mk 0 0 []] 10 = [] ∧
    ccmatch_select_isolated [Row.mk 0 0 [], Row.mk 0 0 []] =
      ([Row.mk 0 0 [], Row.mk 0 0 []], true) := by
  have hempty : pick_isolated_stars [Row.mk 0 0 [], Row.mk 0 0 []] 10 = [] := by
    norm_num [pick_isolated_stars, dist2s, List.countP_cons, List.filter_cons]
  exact ⟨hempty, ccmatch_select_isolated_fallback _ hempty⟩

/-! ## Claim C1 — `count_matches` on an empty candidate-offset set -/

/-- C1: with one source star at (0,0) and one reference star at (10,0),
no reference star lies within the pointing error (1/2 degree) of any
source star, the candidate-offset set is empty, and `count_matches` does
NOT return a zero vote count: it raises (`numpy.argmax` of an empty
`search_weights` array), embedded as `none`.  The scale factor 1 is the
exact `cos_dec` the code computes for this input (`cos 0 = 1`). -/
theorem count_matches_empty_offsets_raises :
    count_matches_core 1 [((0 : ℚ), 0)] [((10 : ℚ), 0)] (1 / 2) (1 / 100) = none := by
  norm_num [count_matches_core, scaleRA, dist2p, List.filter_cons]

/-! ## Claim C4 — the serial branch of `find_best_guess` -/

/-- C4: the serial (`allow_parallel=False`) branch of `find_best_guess`
never completes on a nonempty angle grid: its first loop iteration
evaluates the undefined global `fine_radius` and raises `NameError`, so
it cannot return the results the parallel branch returns. -/
theorem find_best_guess_serial_raises (angles : List ℚ) (hne : angles ≠ []) :
    find_best_guess_serial angles = none := by
  cases angles with
  | nil => exact absurd rfl hne
  | cons a t => rfl

/-- Witness for C4: the angle grid for `angle_max = None` is the single
angle 0, and on it the serial branch raises. -/
theorem find_best_guess_serial_raises_witness :
    angleGrid AngleMax.noRotation 20 ≠ [] ∧
    find_best_guess_serial (angleGrid AngleMax.noRotation 20) = none :=
  ⟨by decide, find_best_guess_serial_raises _ (by decide)⟩

/-! ## Claim C2 — the declination-cosine scale factor of `count_matches` -/

/-- Counterexample to C2: with a source catalog on the equator (dec 0)
and a reference catalog at dec 60, `count_matches` uses
`cos 0 = 1`, not `cos(min(85°, max(0°, 60°))) = cos 60° = 1/2` as the
claim states: the reference catalog's declinations are never read. -/
theorem count_matches_cos_dec_counterexample :
    count_matches_cos_dec [((0 : ℚ), 0)] [((0 : ℚ), 60)] ≠
      cos_dec_claimed [((0 : ℚ), 0)] [((0 : ℚ), 60)] := by
  unfold count_matches_cos_dec cos_dec_claimed maxAbsDec capDec toRadians
  norm_num
  have h60 : (60 : ℝ) * Real.pi / 180 = Real.pi / 3 := by
    ring
  rw [h60, Real.cos_pi_div_three]
  norm_num

/-- C2 (amended): the `cos_dec` scale factor of `count_matches` equals
`cos(min(85°, max |dec| of the SOURCE catalog))`; the reference catalog
plays no role in it. -/
theorem count_matches_cos_dec_amended (src_cat ref_cat ref_cat2 : List Point) :
    count_matches_cos_dec src_cat ref_cat =
      Real.cos (toRadians (min 85 (maxAbsDec src_cat))) ∧
    count_matches_cos_dec src_cat ref_cat = count_matches_cos_dec src_cat ref_cat2 := by
  unfold count_matches_cos_dec
  rw [capDec_eq_min]
  exact ⟨rfl, rfl⟩

/-! ## Claim C3 — the contrast statistic of `find_best_guess` -/

/-- C3: for every completed grid (one probed angle `h` plus the rest `t`)
and every square-root function, the contrast computed by
`find_best_guess` equals the claimed formula: `(best - background) /
sqrt background` with the background the median vote count over grid
points whose angle differs from the best angle by more than 20
arcminutes (1 when no such point exists), and the raw best vote count
when the background is below 1. -/
theorem fbg_contrast_as_claimed (sqrt : ℚ → ℚ) (h : ResultRow) (t : List ResultRow) :
    fbg_contrast sqrt h t = contrast_claimed sqrt h t := by
  simp only [fbg_contrast, contrast_claimed, fbg_n_random_matches]
  by_cases hfar :
      (h :: t).filter (fun r => decide (|r.angle - (fbg_best_guess h t).angle| > 20 / 60)) = []
  · have h0 : (h :: t).countP
        (fun r => decide (|r.angle - (fbg_best_guess h t).angle| > 20 / 60)) = 0 := by
      rw [List.countP_eq_length_filter, hfar]
      rfl
    rw [h0, if_pos hfar]
    norm_num
  · have h0 : ¬ ((h :: t).countP
        (fun r => decide (|r.angle - (fbg_best_guess h t).angle| > 20 / 60)) ≤ 0) := by
      rw [List.countP_eq_length_filter]
      simpa [Nat.pos_iff_ne_zero] using List.length_pos.mpr hfar
    rw [if_neg h0, if_neg hfar]
    rcases lt_or_le (npMedian (((h :: t).filter
        (fun r => decide (|r.angle - (fbg_best_guess h t).angle| > 20 / 60))).map
        (fun r => r.votes))) 1 with hlt | hge
    · rw [if_neg (not_le.mpr hlt), if_pos hlt]
    · rw [if_pos hge, if_neg (not_lt.mpr hge)]

/-! ## Claim C6 — the pointing-error fallback loop of `ccmatch` -/

/-- The last element of a nonempty list, via `getLastD`, is a member. -/
theorem getLastD_mem_of_ne_nil (l : List ℚ) (h : l ≠ []) : l.getLastD 0 ∈ l := by
  rw [List.getLastD_eq_getLast?, List.getLast?_eq_getLast_of_ne_nil h]
  exact List.getLast_mem h

/-- Behaviour of the radius fallback loop on a nonempty radius list: it
returns a result whose contrast belongs to the first radius whose
contrast strictly exceeds the threshold (or to the last radius when none
does), and whose validity flag is `contrast < min_contrast` negated. -/
theorem ccmatch_radius_loop_spec (contrastAt : ℚ → ℚ) (minc : ℚ) :
    ∀ l : List ℚ, l ≠ [] →
      ∃ res, ccmatch_radius_loop contrastAt minc l = some res ∧
        res.contrast = contrastAt
          (match l.find? (fun x => decide (contrastAt x > minc)) with
           | some r => r
           | none => l.getLastD 0) ∧
        res.valid_wcs_solution = decide (¬ (res.contrast < minc)) := by
  intro l
  induction l with
  | nil => intro hne; exact absurd rfl hne
  | cons r rs ih =>
    intro _
    cases rs with
    | nil =>
      refine ⟨RadiusSearchResult.mk (decide (¬ (contrastAt r < minc))) (contrastAt r),
        rfl, ?_, rfl⟩
      by_cases hc : contrastAt r > minc
      · rw [List.find?_cons_of_pos _ (by simpa using hc)]
      · rw [List.find?_cons_of_neg _ (by simpa using hc)]
        rfl
    | cons r2 rs2 =>
      by_cases hc : contrastAt r > minc
      · refine ⟨RadiusSearchResult.mk (decide (¬ (contrastAt r < minc))) (contrastAt r),
          ?_, ?_, rfl⟩
        · simp only [ccmatch_radius_loop, if_pos hc]
        · rw [List.find?_cons_of_pos _ (by simpa using hc)]
      · obtain ⟨res, hres, hcon, hval⟩ := ih (by simp)
        refine ⟨res, ?_, ?_, hval⟩
        · simp only [ccmatch_radius_loop]
          rw [if_neg hc]
          exact hres
        · rw [List.find?_cons_of_neg _ (by simpa using hc)]
          cases hfind : (r2 :: rs2).find? (fun x => decide (contrastAt x > minc)) with
          | some rr =>
            rw [hfind] at hcon
            exact hcon
          | none =>
            rw [hfind] at hcon
            simp only [List.getLastD_cons] at hcon ⊢
            exact hcon

/-- C6 (amended): `ccmatch` walks the configured pointing-error radii in
ascending sorted order and stops at the first radius whose contrast
strictly exceeds the minimum-contrast threshold; it always returns a
structured result (never raises) whose `valid_wcs_solution` field equals
the negation of `contrast < min_contrast` for the last radius tried; in
particular, when every radius's contrast is strictly below the
threshold, `valid_wcs_solution` is `False`.  (When the final contrast
equals the threshold exactly, no radius clears the threshold yet the
field is `True` — see the counterexample.) -/
theorem ccmatch_radius_search_amended (contrastAt : ℚ → ℚ) (minc : ℚ)
    (radii : List ℚ) (hne : radii ≠ []) :
    (radii.insertionSort (· ≤ ·)).Sorted (· ≤ ·) ∧
    ∃ res, ccmatch_radius_search contrastAt minc radii = some res ∧
      res.contrast = contrastAt
        (match (radii.insertionSort (· ≤ ·)).find?
            (fun x => decide (contrastAt x > minc)) with
         | some r => r
         | none => (radii.insertionSort (· ≤ ·)).getLastD 0) ∧
      res.valid_wcs_solution = decide (¬ (res.contrast < minc)) ∧
      ((∀ r ∈ radii, contrastAt r < minc) → res.valid_wcs_solution = false) := by
  have hsortne : radii.insertionSort (· ≤ ·) ≠ [] := by
    intro hcontra
    have hlen := (List.perm_insertionSort (· ≤ ·) radii).length_eq
    rw [hcontra] at hlen
    exact hne (List.eq_nil_of_length_eq_zero hlen.symm)
  obtain ⟨res, hres, hcon, hval⟩ :=
    ccmatch_radius_loop_spec contrastAt minc (radii.insertionSort (· ≤ ·)) hsortne
  refine ⟨List.sorted_insertionSort (· ≤ ·) radii, res, hres, hcon, hval, ?_⟩
  intro hall
  have hfind : (radii.insertionSort (· ≤ ·)).find?
      (fun x => decide (contrastAt x > minc)) = none := by
    rw [List.find?_eq_none]
    intro x hx
    have hxr : x ∈ radii := (List.perm_insertionSort (· ≤ ·) radii).mem_iff.mp hx
    simpa using lt_asymm (hall x hxr)
  rw [hfind] at hcon
  have hlast : (radii.insertionSort (· ≤ ·)).getLastD 0 ∈ radii :=
    (List.perm_insertionSort (· ≤ ·) radii).mem_iff.mp
      (getLastD_mem_of_ne_nil _ hsortne)
  have hlt : res.contrast < minc := by
    rw [hcon]
    exact hall _ hlast
  rw [hval]
  simp [hlt]

/-- Counterexample to C6 as stated: with the single configured radius 2
and a contrast that exactly equals the minimum-contrast threshold 5, no
radius clears the threshold (the loop's break condition is the strict
`contrast > min_contrast`), yet the returned `valid_wcs_solution` field
is `True`, because the failure check is the strict `contrast <
min_contrast` (dev_ccmatch.py line 1644). -/
theorem ccmatch_radius_search_counterexample :
    (∀ r ∈ [(2 : ℚ)], ¬ ((fun _ : ℚ => (5 : ℚ)) r > 5)) ∧
    ccmatch_radius_search (fun _ : ℚ => (5 : ℚ)) 5 [2] =
      some (RadiusSearchResult.mk true 5) := by
  constructor
  · intro r _
    norm_num
  · rfl

/-- Witness for C6 (amended) at `contrastAt = id`, threshold 0, radius
list `[3]`. -/
theorem ccmatch_radius_search_amended_witness :
    ([(3 : ℚ)].insertionSort (· ≤ ·)).Sorted (· ≤ ·) ∧
    ∃ res, ccmatch_radius_search (fun r : ℚ => r) 0 [3] = some res ∧
      res.contrast = (fun r : ℚ => r)
        (match ([(3 : ℚ)].insertionSort (· ≤ ·)).find?
            (fun x => decide ((fun r : ℚ => r) x > 0)) with
         | some r => r
         | none => ([(3 : ℚ)].insertionSort (· ≤ ·)).getLastD 0) ∧
      res.valid_wcs_solution = decide (¬ (res.contrast < 0)) ∧
      ((∀ r ∈ [(3 : ℚ)], (fun r : ℚ => r) r < 0) → res.valid_wcs_solution = false) :=
  ccmatch_radius_search_amended (fun r => r) 0 [3] (by decide)

/-! ## Claim C5 — `kd_match_catalogs` with `max_count = 1` -/

/-- C5: for every nonzero declination scale factor, `kd_match_catalogs`
with `max_count = 1` keeps a source row iff exactly one reference row
lies within the matching radius of it in declination-scaled coordinates
(rows with zero or several candidates are omitted entirely), and the
output row is the source row's columns followed by the columns of the
single matching reference row. -/
theorem kd_match_catalogs_max1_as_claimed (c : ℚ) (hc : c ≠ 0)
    (src_cat ref_cat : List Row) (matching_radius : ℚ) :
    kd_match_catalogs_core c src_cat ref_cat matching_radius 1 =
      kd_match_claimed c src_cat ref_cat matching_radius := by
  unfold kd_match_catalogs_core kd_match_claimed
  rw [List.map_filterMap, List.filterMap_map]
  apply List.filterMap_congr
  intro s _
  simp only [Function.comp]
  rw [List.filter_map]
  simp only [Function.comp_def]
  cases href : ref_cat.filter
      (fun r => decide (dist2s (scaleRow c s) (scaleRow c r) ≤
        matching_radius * matching_radius)) with
  | nil => rfl
  | cons r0 rest =>
    cases rest with
    | nil =>
      simp only [List.map_cons, List.map_nil, List.length_nil, Option.map_some]
      rw [if_pos (by norm_num)]
      have hs : Row.mk (c * s.ra / c) s.dec s.rest = s := by
        rw [mul_div_cancel_left₀ s.ra hc]
      have hr : Row.mk (c * r0.ra / c) r0.dec r0.rest = r0 := by
        rw [mul_div_cancel_left₀ r0.ra hc]
      rw [Option.map_some']
      simp only [scaleRow]
      rw [hs, hr]
    | cons r1 rest2 =>
      simp only [List.map_cons, List.length_cons]
      rw [if_neg (by simp)]
      rfl

/-- Witness for C5 at scale factor 1 and two one-row catalogs. -/
theorem kd_match_catalogs_max1_witness :
    (1 : ℚ) ≠ 0 ∧
    kd_match_catalogs_core 1 [Row.mk 0 0 []] [Row.mk 0 0 []] 1 1 =
      kd_match_claimed 1 [Row.mk 0 0 []] [Row.mk 0 0 []] 1 :=
  ⟨one_ne_zero, kd_match_catalogs_max1_as_claimed 1 one_ne_zero _ _ _⟩

/-! ## Claim C7 — the rotation-angle grid of `find_best_guess` -/

/-- `npLinspace` over `num = k+1` samples in closed form. -/
theorem npLinspace_cons_eq (start stop : ℚ) (k : ℕ) :
    npLinspace start stop (k + 1) =
      (List.range (k + 1)).map
        (fun i : ℕ => start + (i : ℚ) * ((stop - start) / (k : ℚ))) := by
  unfold npLinspace
  by_cases hk : k = 0
  · subst hk
    norm_num [List.range_succ]
  · rw [if_neg (by omega)]
    apply List.map_congr_left
    intro i _
    have hcast : ((k : ℚ) + 1) - 1 = (k : ℚ) := by ring
    push_cast
    rw [hcast]

/-- Head of a mapped range. -/
theorem range_map_head (f : ℕ → ℚ) (k : ℕ) :
    ((List.range (k + 1)).map f).head? = some (f 0) := by
  rw [List.range_succ_eq_map]
  simp

/-- Last element of a mapped range. -/
theorem range_map_getLast (f : ℕ → ℚ) (k : ℕ) :
    ((List.range (k + 1)).map f).getLast? = some (f k) := by
  rw [List.range_succ, List.map_append]
  simp

/-- Last element of the claim-side evenly spaced formula. -/
theorem linspace_last_formula (x y K : ℚ) (hK : K ≠ 0) :
    x + K * ((y - x) / K) = y := by
  rw [mul_comm, div_mul_cancel₀ _ hK]
  ring

/-- C7: the angle grid of `find_best_guess` is the single angle 0 when
`angle_max` is `None`; `ceil(2*angle_max/(d_angle/60)) + 1` evenly
spaced angles from `-angle_max` to `angle_max` (both ends included) for
a scalar `angle_max ≥ 0`; and `ceil((max-min)/(d_angle/60)) + 1` evenly
spaced angles from `min` to `max` (both ends included) for a pair. -/
theorem angleGrid_as_claimed (d_angle a lo hi : ℚ)
    (hd : 0 < d_angle) (ha : 0 ≤ a) (hlh : lo ≤ hi) :
    angleGrid AngleMax.noRotation d_angle = [0] ∧
    (angleGrid (AngleMax.scalar a) d_angle).length =
      (Int.ceil ((2 * a) / (d_angle / 60))).toNat + 1 ∧
    angleGrid (AngleMax.scalar a) d_angle =
      (List.range ((Int.ceil ((2 * a) / (d_angle / 60))).toNat + 1)).map
        (fun i : ℕ => -a + (i : ℚ) *
          ((a - -a) / ((Int.ceil ((2 * a) / (d_angle / 60))).toNat : ℚ))) ∧
    (angleGrid (AngleMax.scalar a) d_angle).head? = some (-a) ∧
    (angleGrid (AngleMax.scalar a) d_angle).getLast? = some a ∧
    (angleGrid (AngleMax.interval lo hi) d_angle).length =
      (Int.ceil ((hi - lo) / (d_angle / 60))).toNat + 1 ∧
    angleGrid (AngleMax.interval lo hi) d_angle =
      (List.range ((Int.ceil ((hi - lo) / (d_angle / 60))).toNat + 1)).map
        (fun i : ℕ => lo + (i : ℚ) *
          ((hi - lo) / ((Int.ceil ((hi - lo) / (d_angle / 60))).toNat : ℚ))) ∧
    (angleGrid (AngleMax.interval lo hi) d_angle).head? = some lo ∧
    (angleGrid (AngleMax.interval lo hi) d_angle).getLast? = some hi := by
  have hpos : 0 < d_angle / 60 := by positivity
  have hgrid1 : angleGrid (AngleMax.scalar a) d_angle =
      (List.range ((Int.ceil ((2 * a) / (d_angle / 60))).toNat + 1)).map
        (fun i : ℕ => -a + (i : ℚ) *
          ((a - -a) / ((Int.ceil ((2 * a) / (d_angle / 60))).toNat : ℚ))) := by
    have : a - -a = a - -a := rfl
    exact npLinspace_cons_eq (-a) a _
  have hgrid2 : angleGrid (AngleMax.interval lo hi) d_angle =
      (List.range ((Int.ceil ((hi - lo) / (d_angle / 60))).toNat + 1)).map
        (fun i : ℕ => lo + (i : ℚ) *
          ((hi - lo) / ((Int.ceil ((hi - lo) / (d_angle / 60))).toNat : ℚ))) :=
    npLinspace_cons_eq lo hi _
  have hk1zero : (Int.ceil ((2 * a) / (d_angle / 60))).toNat = 0 → a = 0 := by
    intro hk
    have hceil : Int.ceil ((2 * a) / (d_angle / 60)) ≤ 0 := Int.toNat_eq_zero.mp hk
    have hx : (2 * a) / (d_angle / 60) ≤ 0 := by
      have := Int.ceil_le.mp hceil
      simpa using this
    have hx2 : 0 ≤ (2 * a) / (d_angle / 60) := div_nonneg (by linarith) hpos.le
    have hz : (2 * a) / (d_angle / 60) = 0 := le_antisymm hx hx2
    rw [div_eq_zero_iff] at hz
    rcases hz with hz | hz
    · linarith
    · exact absurd hz (ne_of_gt hpos)
  have hk2zero : (Int.ceil ((hi - lo) / (d_angle / 60))).toNat = 0 → hi = lo := by
    intro hk
    have hceil : Int.ceil ((hi - lo) / (d_angle / 60)) ≤ 0 := Int.toNat_eq_zero.mp hk
    have hx : (hi - lo) / (d_angle / 60) ≤ 0 := by
      have := Int.ceil_le.mp hceil
      simpa using this
    have hx2 : 0 ≤ (hi - lo) / (d_angle / 60) := div_nonneg (by linarith) hpos.le
    have hz : (hi - lo) / (d_angle / 60) = 0 := le_antisymm hx hx2
    rw [div_eq_zero_iff] at hz
    rcases hz with hz | hz
    · linarith
    · exact absurd hz (ne_of_gt hpos)
  refine ⟨rfl, ?_, hgrid1, ?_, ?_, ?_, hgrid2, ?_, ?_⟩
  · rw [hgrid1, List.length_map, List.length_range]
  · rw [hgrid1, range_map_head]
    norm_num
  · rw [hgrid1, range_map_getLast]
    by_cases hk : (Int.ceil ((2 * a) / (d_angle / 60))).toNat = 0
    · have ha0 := hk1zero hk
      subst ha0
      rw [hk]
      norm_num
    · have hkq : ((Int.ceil ((2 * a) / (d_angle / 60))).toNat : ℚ) ≠ 0 :=
        Nat.cast_ne_zero.mpr hk
      congr 1
      exact linspace_last_formula (-a) a _ hkq
  · rw [hgrid2, List.length_map, List.length_range]
  · rw [hgrid2, range_map_head]
    norm_num
  · rw [hgrid2, range_map_getLast]
    by_cases hk : (Int.ceil ((hi - lo) / (d_angle / 60))).toNat = 0
    · have hhl := hk2zero hk
      rw [hk]
      norm_num [hhl]
    · have hkq : ((Int.ceil ((hi - lo) / (d_angle / 60))).toNat : ℚ) ≠ 0 :=
        Nat.cast_ne_zero.mpr hk
      congr 1
      exact linspace_last_formula lo hi _ hkq

/-- Witness for C7 at `d_angle = 60`, scalar bound 1, interval `[0, 1]`. -/
theorem angleGrid_as_claimed_witness :
    (0 : ℚ) < 60 ∧ (0 : ℚ) ≤ 1 ∧ (0 : ℚ) ≤ 1 ∧
    (angleGrid AngleMax.noRotation 60 = [0] ∧
     (angleGrid (AngleMax.scalar 1) 60).length =
       (Int.ceil ((2 * (1 : ℚ)) / ((60 : ℚ) / 60))).toNat + 1 ∧
     angleGrid (AngleMax.scalar 1) 60 =
       (List.range ((Int.ceil ((2 * (1 : ℚ)) / ((60 : ℚ) / 60))).toNat + 1)).map
         (fun i : ℕ => -1 + (i : ℚ) *
           ((1 - -1) / ((Int.ceil ((2 * (1 : ℚ)) / ((60 : ℚ) / 60))).toNat : ℚ))) ∧
     (angleGrid (AngleMax.scalar 1) 60).head? = some (-1) ∧
     (angleGrid (AngleMax.scalar 1) 60).getLast? = some 1 ∧
     (angleGrid (AngleMax.interval 0 1) 60).length =
       (Int.ceil (((1 : ℚ) - 0) / ((60 : ℚ) / 60))).toNat + 1 ∧
     angleGrid (AngleMax.interval 0 1) 60 =
       (List.range ((Int.ceil (((1 : ℚ) - 0) / ((60 : ℚ) / 60))).toNat + 1)).map
         (fun i : ℕ => 0 + (i : ℚ) *
           ((1 - 0) / ((Int.ceil (((1 : ℚ) - 0) / ((60 : ℚ) / 60))).toNat : ℚ))) ∧
     (angleGrid (AngleMax.interval 0 1) 60).head? = some 0 ∧
     (angleGrid (AngleMax.interval 0 1) 60).getLast? = some 1) :=
  ⟨by norm_num, by norm_num, by norm_num,
    angleGrid_as_claimed 60 1 0 1 (by norm_num) (by norm_num) (by norm_num)⟩

/-! ## Claim C10 — one output row per selected reference star -/

/-- Every output row of `seg_row_for` carries its reference star's
coordinates in the first two columns. -/
theorem seg_row_for_ref_coords (cosf : ℚ → ℚ) (odi_w : ℕ) (odi : List Row) (star : Row) :
    (seg_row_for cosf odi_w odi star).ref_ra = star.ra ∧
    (seg_row_for cosf odi_w odi star).ref_dec = star.dec := by
  cases odi with
  | nil => exact ⟨rfl, rfl⟩
  | cons o1 orest =>
    simp only [seg_row_for]
    constructor <;> (split <;> rfl)

/-- When no candidate odi star lies within the 2-arcsec test radius of a
reference star, `seg_row_for` keeps the sentinel in both odi coordinate
columns. -/
theorem seg_row_for_unmatched (cosf : ℚ → ℚ) (odi_w : ℕ) (odi : List Row) (star : Row)
    (hno : ∀ o ∈ odi, ¬ (seg_sq_d cosf star o < 2 * arcsec * (2 * arcsec))) :
    (seg_row_for cosf odi_w odi star).odi_ra = notFound ∧
    (seg_row_for cosf odi_w odi star).odi_dec = notFound := by
  cases odi with
  | nil => exact ⟨rfl, rfl⟩
  | cons o1 orest =>
    simp only [seg_row_for]
    rw [if_neg (hno _ (argminBy_mem (seg_sq_d cosf star) o1 orest))]
    exact ⟨rfl, rfl⟩

/-- Zipping a mapped list with the original list pairs each element with
its image. -/
theorem map_zip_self (f : Row → SegRow) (l : List Row) :
    (l.map f).zip l = l.map (fun s => (f s, s)) := by
  induction l with
  | nil => rfl
  | cons x xs ih => simp [ih]

/-- C10: whenever the reference-star box selection of
`match_catalog_segment` is nonempty, the call returns a list with
exactly one output row per selected reference star (so the output row
count equals the number of selected reference rows); each row carries
its reference star's coordinates, and a reference star with no odi
counterpart within the matching radius keeps its row, with the sentinel
value −99999.9 in both counterpart coordinate columns, rather than
being omitted. -/
theorem match_catalog_segment_rows (cosf : ℚ → ℚ) (odi_w : ℕ)
    (ref_full odi_full : List Row) (ra_lo ra_hi dec_lo dec_hi mr : ℚ)
    (hne : ref_full.filter (seg_ref_select ra_lo ra_hi dec_lo dec_hi) ≠ []) :
    ∃ out, match_catalog_segment cosf odi_w ref_full odi_full
        ra_lo ra_hi dec_lo dec_hi mr = some out ∧
      out.length = (ref_full.filter (seg_ref_select ra_lo ra_hi dec_lo dec_hi)).length ∧
      ∀ p ∈ out.zip (ref_full.filter (seg_ref_select ra_lo ra_hi dec_lo dec_hi)),
        p.1.ref_ra = p.2.ra ∧ p.1.ref_dec = p.2.dec ∧
        ((∀ o ∈ odi_full, ¬ (seg_sq_d cosf p.2 o < 2 * arcsec * (2 * arcsec))) →
          p.1.odi_ra = notFound ∧ p.1.odi_dec = notFound) := by
  obtain ⟨r0, rr, href⟩ := List.exists_cons_of_ne_nil hne
  refine ⟨(r0 :: rr).map (seg_row_for cosf odi_w (odi_full.filter
      (seg_odi_box cosf (r0 :: rr) ra_lo ra_hi dec_lo dec_hi mr))), ?_, ?_, ?_⟩
  · unfold match_catalog_segment
    rw [href]
  · rw [href, List.length_map]
  · rw [href, map_zip_self]
    intro p hp
    obtain ⟨star, _, rfl⟩ := List.mem_map.mp hp
    refine ⟨(seg_row_for_ref_coords _ _ _ _).1, (seg_row_for_ref_coords _ _ _ _).2, ?_⟩
    intro hno
    apply seg_row_for_unmatched
    intro o ho
    exact hno o (List.mem_filter.mp ho).1

/-- Witness for C10: one reference star inside the box, no odi star at
all. -/
theorem match_catalog_segment_rows_witness :
    ([Row.mk 1 1 []].filter (seg_ref_select 0 2 0 2) ≠ []) ∧
    (∃ out, match_catalog_segment (fun _ : ℚ => 1) 2 [Row.mk 1 1 []] []
        0 2 0 2 2 = some out ∧
      out.length = ([Row.mk 1 1 []].filter (seg_ref_select 0 2 0 2)).length ∧
      ∀ p ∈ out.zip ([Row.mk 1 1 []].filter (seg_ref_select 0 2 0 2)),
        p.1.ref_ra = p.2.ra ∧ p.1.ref_dec = p.2.dec ∧
        ((∀ o ∈ ([] : List Row),
            ¬ (seg_sq_d (fun _ : ℚ => 1) p.2 o < 2 * arcsec * (2 * arcsec))) →
          p.1.odi_ra = notFound ∧ p.1.odi_dec = notFound)) := by
  have hne : [Row.mk 1 1 []].filter (seg_ref_select 0 2 0 2) ≠ [] := by
    norm_num [seg_ref_select, List.filter_cons]
  exact ⟨hne, match_catalog_segment_rows _ _ _ _ _ _ _ _ _ hne⟩
